import Mathlib

/-!
# A verification development for kinobot's resolve-then-extract core

This file gives a shallow embedding, in Lean 4, of the parts of the
`kinobot` repository that the verified properties are about:

* the fuzzy catalog resolver (`Movie.from_query`, `Song.from_query`,
  `TVShow.from_query` in `src/kinobot/media.py`),
* the frame extractor (`LocalMedia.get_frame` and `LocalMedia._fix_dar`
  in `src/kinobot/media.py`),
* the subtitle loader (`LocalMedia.subtitle` and
  `LocalMedia.get_subtitles` in `src/kinobot/media.py`),
* the per-request pipeline (`handle_requests` in `src/kinobot/main.py`).

Conventions of the embedding:

* Python strings become `String`; `str.lower()` becomes `pyLower` and
  `str.strip()` becomes `pyStrip` below (ASCII lowering and whitespace
  stripping, which agree with Python on the ASCII examples used here).
* Python floats become `ℚ`; `int(x)` on a non-negative float becomes
  `Int.floor` (they agree on non-negative values).
* Database rows (`sql_to_dict` results) become structures carrying the
  fields the resolver reads; the SQL `where hidden=0` clause becomes a
  `List.filter`.
* Raised exceptions become an `Except Err` result, with one `Err`
  constructor per exception class that the embedded code raises.
-/

set_option maxRecDepth 8000

open Levenshtein (Cost)

/-! ## The fuzzy similarity ratio

`fuzzywuzzy`'s `fuzz.ratio` is an external library (not part of the
repository).  With its `python-Levenshtein` backend it computes
`int(round(100 * (lensum - ldist) / lensum))` where `lensum` is the sum
of the two string lengths and `ldist` is the Levenshtein distance in
which a substitution costs 2 (insertions and deletions cost 1).  We model
it with Mathlib's `levenshtein` over that cost structure; the rounding is
round-half-up (the concrete strings used in the theorems below avoid
exact-half values, where Python's banker's rounding could differ), and
the value on two empty strings is 100, as in the library. -/

/-- The cost structure of `python-Levenshtein`'s `ratio`: unit insertion
and deletion cost, substitution cost 2. -/
def fuzzCost : Cost Char Char ℕ :=
  { delete := fun _ => 1, insert := fun _ => 1,
    substitute := fun a b => if a = b then 0 else 2 }

/-- Model of `fuzz.ratio` from `fuzzywuzzy`: a 0–100 similarity score. -/
def fuzzRatio (s1 s2 : String) : ℕ :=
  let lensum := s1.length + s2.length
  if lensum = 0 then 100
  else ((lensum - levenshtein fuzzCost s1.toList s2.toList) * 200 + lensum) / (2 * lensum)

theorem levenshtein_fuzzCost_self (l : List Char) : levenshtein fuzzCost l l = 0 := by
  induction l with
  | nil => simp
  | cons a t ih =>
      rw [levenshtein_cons_cons]
      have hs : fuzzCost.substitute a a = 0 := by simp [fuzzCost]
      rw [hs, ih]
      simp

/-- A string compared with itself has fuzzy ratio 100. -/
theorem fuzzRatio_self (s : String) : fuzzRatio s s = 100 := by
  unfold fuzzRatio
  rw [levenshtein_fuzzCost_self]
  rcases Nat.eq_zero_or_pos (s.length + s.length) with h | h
  · simp [h]
  · have hne : ¬ (s.length + s.length = 0) := by omega
    simp only [hne, if_false, Nat.sub_zero]
    have hrw : (s.length + s.length) * 200 + (s.length + s.length)
        = (s.length + s.length) + (2 * (s.length + s.length)) * 100 := by ring
    rw [hrw, Nat.add_mul_div_left _ _ (by omega : 0 < 2 * (s.length + s.length)),
      Nat.div_eq_of_lt (by omega)]

/-- The fuzzy ratio never exceeds 100. -/
theorem fuzzRatio_le_100 (s1 s2 : String) : fuzzRatio s1 s2 ≤ 100 := by
  unfold fuzzRatio
  rcases Nat.eq_zero_or_pos (s1.length + s2.length) with h | h
  · simp [h]
  · have hne : ¬ (s1.length + s2.length = 0) := by omega
    simp only [hne, if_false]
    have hsub : s1.length + s2.length - levenshtein fuzzCost s1.toList s2.toList
        ≤ s1.length + s2.length := Nat.sub_le _ _
    have hnum : (s1.length + s2.length - levenshtein fuzzCost s1.toList s2.toList) * 200
          + (s1.length + s2.length)
        ≤ (s1.length + s2.length) * 200 + (s1.length + s2.length) := by
      exact Nat.add_le_add_right (Nat.mul_le_mul_right _ hsub) _
    calc ((s1.length + s2.length - levenshtein fuzzCost s1.toList s2.toList) * 200
            + (s1.length + s2.length)) / (2 * (s1.length + s2.length))
        ≤ ((s1.length + s2.length) * 200 + (s1.length + s2.length))
            / (2 * (s1.length + s2.length)) := Nat.div_le_div_right hnum
      _ ≤ 100 := by
          apply Nat.le_of_lt_succ
          rw [Nat.div_lt_iff_lt_mul (by omega : 0 < 2 * (s1.length + s2.length))]
          omega

/-! ## The catalog scan

All three `from_query` resolvers run the same loop over the candidate
rows (`src/kinobot/media.py`, lines 428–440 for movies, 563–572 for TV
shows, 972–981 for songs):

```
initial = 0
final_list = []
for item in item_list:
    fuzzy = fuzz.ratio(query, <comparison string of item>)
    if fuzzy > initial:
        initial = fuzzy
        final_list.append(item)
        if fuzzy > 98:  # movies only
            break
```

`scanAux ratio brk` embeds this loop, abstracted over the per-item
ratio function; `brk` says whether the `fuzzy > 98: break` line is
present (it is for `Movie.from_query` only).  The `examined` field
instruments the loop with the number of iterations performed, so that
short-circuiting is observable. -/

/-- Result of the `from_query` scan loop: the running maximum `initial`,
the improvement trail `final_list`, and the number of loop iterations
performed. -/
structure ScanResult (α : Type) where
  initial : ℕ
  final_list : List α
  examined : ℕ
deriving DecidableEq, Repr

/-- The `from_query` scan loop, with explicit accumulators.  `brk` is
`true` when the loop contains the `if fuzzy > 98: break` early exit. -/
def scanAux (ratio : α → ℕ) (brk : Bool) : List α → ℕ → List α → ScanResult α
  | [], initial, final_list => ⟨initial, final_list, 0⟩
  | item :: rest, initial, final_list =>
    let fuzzy := ratio item
    if initial < fuzzy then
      if brk = true ∧ 98 < fuzzy then
        ⟨fuzzy, final_list ++ [item], 1⟩
      else
        let r := scanAux ratio brk rest fuzzy (final_list ++ [item])
        ⟨r.initial, r.final_list, r.examined + 1⟩
    else
      let r := scanAux ratio brk rest initial final_list
      ⟨r.initial, r.final_list, r.examined + 1⟩

/-- The scan loop started with `initial = 0` and `final_list = []`. -/
def scanBest (ratio : α → ℕ) (brk : Bool) (item_list : List α) : ScanResult α :=
  scanAux ratio brk item_list 0 []

/-- When no remaining item strictly beats the running maximum, the scan
changes nothing and examines every remaining item. -/
theorem scanAux_saturated (ratio : α → ℕ) (brk : Bool) :
    ∀ (l : List α) (b : ℕ) (acc : List α), (∀ x ∈ l, ratio x ≤ b) →
      scanAux ratio brk l b acc = ⟨b, acc, l.length⟩ := by
  intro l
  induction l with
  | nil => intro b acc _; rfl
  | cons x rest ih =>
      intro b acc h
      have hx : ratio x ≤ b := h x (by simp)
      have hnot : ¬ b < ratio x := by omega
      simp only [scanAux, hnot, if_false]
      rw [ih b acc (fun y hy => h y (by simp [hy]))]
      simp

/-- A scan without the `break` line examines the entire list. -/
theorem scanAux_noBreak_examined (ratio : α → ℕ) :
    ∀ (l : List α) (b : ℕ) (acc : List α),
      (scanAux ratio false l b acc).examined = l.length := by
  intro l
  induction l with
  | nil => intro b acc; rfl
  | cons x rest ih =>
      intro b acc
      by_cases hx : b < ratio x
      · have hcond : ¬ ((false = true) ∧ 98 < ratio x) := by simp
        simp only [scanAux, hx, if_true, hcond, if_false]
        rw [ih]
        simp
      · simp only [scanAux, hx, if_false]
        rw [ih]
        simp

/-- Main scan lemma.  If `b` is the first item of the list attaining the
maximal ratio (everything before it is strictly smaller, everything
after it is no larger — the latter only needed when the `break` line
cannot fire at `b`), and the `break` line cannot fire before `b`, then
the scan ends with `initial = ratio b`, with `b` as the last element of
`final_list`, and examines `pre.length + 1` items when it breaks at `b`
and the whole list otherwise. -/
theorem scanAux_firstMax (ratio : α → ℕ) (brk : Bool) (b : α) :
    ∀ (pre post : List α) (init : ℕ) (acc : List α),
      init < ratio b →
      (∀ x ∈ pre, ratio x < ratio b) →
      (brk = true → ∀ x ∈ pre, ratio x ≤ 98) →
      (¬ (brk = true ∧ 98 < ratio b) → ∀ x ∈ post, ratio x ≤ ratio b) →
      (scanAux ratio brk (pre ++ b :: post) init acc).initial = ratio b ∧
      (scanAux ratio brk (pre ++ b :: post) init acc).final_list.getLast? = some b ∧
      (scanAux ratio brk (pre ++ b :: post) init acc).examined =
        (if brk = true ∧ 98 < ratio b then pre.length + 1
         else pre.length + 1 + post.length) := by
  intro pre
  induction pre with
  | nil =>
      intro post init acc hinit _ _ hpost
      simp only [List.nil_append]
      by_cases hbm : brk = true ∧ 98 < ratio b
      · simp only [scanAux, hinit, if_true, hbm, List.length_nil]
        refine ⟨rfl, ?_, rfl⟩
        simp [List.getLast?_concat]
      · simp only [scanAux, hinit, if_true, hbm, if_false]
        rw [scanAux_saturated ratio brk post (ratio b) (acc ++ [b]) (hpost hbm)]
        refine ⟨rfl, ?_, ?_⟩
        · simp [List.getLast?_concat]
        · simp only [hbm, if_false, List.length_nil]
          omega
  | cons p pre' ih =>
      intro post init acc hinit hpre hbrk hpost
      have hp : ratio p < ratio b := hpre p (by simp)
      have hcond : ¬ (brk = true ∧ 98 < ratio p) := by
        rintro ⟨hb, h98⟩
        have := hbrk hb p (by simp)
        omega
      by_cases hip : init < ratio p
      · simp only [List.cons_append, scanAux, hip, if_true, hcond, if_false,
          List.append_eq]
        have := ih post (ratio p) (acc ++ [p]) hp
          (fun x hx => hpre x (by simp [hx]))
          (fun hb x hx => hbrk hb x (by simp [hx])) hpost
        refine ⟨this.1, this.2.1, ?_⟩
        rw [this.2.2]
        by_cases hbm : brk = true ∧ 98 < ratio b
        · simp [hbm, List.length_cons]
        · simp only [hbm, if_false, List.length_cons]
          omega
      · simp only [List.cons_append, scanAux, hip, if_false, List.append_eq]
        have := ih post init acc hinit
          (fun x hx => hpre x (by simp [hx]))
          (fun hb x hx => hbrk hb x (by simp [hx])) hpost
        refine ⟨this.1, this.2.1, ?_⟩
        rw [this.2.2]
        by_cases hbm : brk = true ∧ 98 < ratio b
        · simp [hbm, List.length_cons]
        · simp only [hbm, if_false, List.length_cons]
          omega

/-- Every element of the scan's `final_list` comes from the accumulator
or from the scanned list. -/
theorem scanAux_mem_final_list (ratio : α → ℕ) (brk : Bool) :
    ∀ (l : List α) (b : ℕ) (acc : List α) (x : α),
      x ∈ (scanAux ratio brk l b acc).final_list → x ∈ acc ∨ x ∈ l := by
  intro l
  induction l with
  | nil => intro b acc x hx; exact Or.inl hx
  | cons y rest ih =>
      intro b acc x hx
      by_cases hy : b < ratio y
      · by_cases hbm : brk = true ∧ 98 < ratio y
        · simp only [scanAux, hy, if_true, hbm] at hx
          rcases List.mem_append.mp hx with h | h
          · exact Or.inl h
          · simp at h
            exact Or.inr (by simp [h])
        · simp only [scanAux, hy, if_true, hbm, if_false] at hx
          rcases ih (ratio y) (acc ++ [y]) x hx with h | h
          · rcases List.mem_append.mp h with h1 | h1
            · exact Or.inl h1
            · simp at h1
              exact Or.inr (by simp [h1])
          · exact Or.inr (by simp [h])
      · simp only [scanAux, hy, if_false] at hx
        rcases ih b acc x hx with h | h
        · exact Or.inl h
        · exact Or.inr (by simp [h])

/-! ## Catalog rows, errors, and the three resolvers

`sql_to_dict` rows become structures with the fields the resolvers read.
The `Err` type has one constructor per exception class raised by the
embedded code; `indexError` stands for Python's built-in `IndexError`,
raised by `final_list[-1]` on an empty list. -/

/-- A row of the `movies` table, with the fields `Movie.from_query`
reads (`title`, `year`, `hidden`; `id` distinguishes rows). -/
structure MovieRow where
  id : ℕ
  title : String
  year : String
  hidden : Bool
deriving DecidableEq, Repr

/-- A row of the `songs` table, with the fields `Song.from_query`
reads. -/
structure SongRow where
  id : ℕ
  artist : String
  title : String
  hidden : Bool
deriving DecidableEq, Repr

/-- A row of the `tv_shows` table, with the fields `TVShow.from_query`
reads. -/
structure TVShowRow where
  id : ℕ
  name : String
deriving DecidableEq, Repr

/-- Exception classes raised by the embedded code: `MovieNotFound`,
`EpisodeNotFound`, `NothingFound`, `SubtitlesNotFound`,
`InexistentTimestamp` (from `kinobot.exceptions`), Python's built-in
`FileNotFoundError` and `IndexError`. -/
inductive Err where
  | movieNotFound (msg : String)
  | episodeNotFound (msg : String)
  | nothingFound (msg : String)
  | subtitlesNotFound (msg : String)
  | inexistentTimestamp (msg : String)
  | fileNotFound
  | indexError
deriving DecidableEq, Repr

/-- Whether an error is one of the resolver's "not found" kinds. -/
def Err.isNotFound : Err → Bool
  | .movieNotFound _ => true
  | .episodeNotFound _ => true
  | .nothingFound _ => true
  | _ => false

/-- Whether an error is the `SubtitlesNotFound` kind. -/
def Err.isSubtitlesNotFound : Err → Bool
  | .subtitlesNotFound _ => true
  | _ => false

/-- The `WEBSITE` constant from `kinobot.constants` (not under `src/`);
its value, seen in `src/kinobot/main.py`, is the public site URL.  Only
its presence in the failure messages matters below. -/
def WEBSITE : String := "https://kino.caretas.club"

/-- The `MovieNotFound` message of `Movie.from_query`. -/
def movieNotFoundMsg (query title : String) : String :=
  "Movie not found: \"" ++ query ++ "\". Maybe you meant \"" ++ title ++
    "\"? Explore the collection: " ++ WEBSITE ++ "."

/-- The `EpisodeNotFound` message of `TVShow.from_query`. -/
def episodeNotFoundMsg (query name : String) : String :=
  "TV Show not found: \"" ++ query ++ "\". Maybe you meant \"" ++ name ++
    "\"? Explore the collection: " ++ WEBSITE ++ "."

/-- The `NothingFound` message of `Song.from_query`. -/
def songNotFoundMsg (query title : String) : String :=
  "Song not found: \"" ++ query ++ "\". Maybe you meant \"" ++ title ++
    "\"? Explore the collection: " ++ WEBSITE ++ "/music."

/-- Model of Python's `str.lower()`: lower every character (ASCII). -/
def pyLower (s : String) : String := ⟨s.data.map Char.toLower⟩

/-- Model of Python's `str.strip()`: remove leading and trailing
whitespace. -/
def pyStrip (s : String) : String :=
  ⟨((s.data.dropWhile Char.isWhitespace).reverse.dropWhile Char.isWhitespace).reverse⟩

/-- The comparison string `f"{item['title']} {item['year']}".lower()`
used by `Movie.from_query`. -/
def movieCandidate (item : MovieRow) : String :=
  pyLower (item.title ++ " " ++ item.year)

/-- The comparison string `f"{item['artist']} - {item['title']}".lower()`
used by `Song.from_query`. -/
def songCandidate (item : SongRow) : String :=
  pyLower (item.artist ++ " - " ++ item.title)

/-- The comparison string `item["name"].lower()` used by
`TVShow.from_query`. -/
def tvCandidate (item : TVShowRow) : String :=
  pyLower item.name

/-- `Movie.from_query` (`src/kinobot/media.py`, lines 415–448).  The
catalog argument stands for the `movies` table; the SQL
`select * from movies where hidden=0` becomes a filter.  `final_list[-1]`
on an empty list raises `IndexError` (before the threshold test, which
can therefore not fire on an empty trail). -/
def Movie.from_query (catalog : List MovieRow) (query : String) : Except Err MovieRow :=
  let query := pyStrip (pyLower query)
  let item_list := catalog.filter (fun item => item.hidden == false)
  let scan := scanBest (fun item => fuzzRatio query (movieCandidate item)) true item_list
  match scan.final_list.getLast? with
  | none => .error .indexError
  | some item =>
    if scan.initial < 59 then
      .error (.movieNotFound (movieNotFoundMsg query item.title))
    else .ok item

/-- `Song.from_query` (`src/kinobot/media.py`, lines 958–989).  The SQL
is `select * from songs` — no `hidden` filter — and the loop has no
`> 98` break. -/
def Song.from_query (catalog : List SongRow) (query : String) : Except Err SongRow :=
  let query := pyStrip (pyLower query)
  let item_list := catalog
  let scan := scanBest (fun item => fuzzRatio query (songCandidate item)) false item_list
  match scan.final_list.getLast? with
  | none => .error .indexError
  | some item =>
    if scan.initial < 59 then
      .error (.nothingFound (songNotFoundMsg query item.title))
    else .ok item

/-- `TVShow.from_query` (`src/kinobot/media.py`, lines 549–580).  The SQL
is `select * from tv_shows`; threshold 77, no `> 98` break. -/
def TVShow.from_query (catalog : List TVShowRow) (query : String) : Except Err TVShowRow :=
  let query := pyStrip (pyLower query)
  let item_list := catalog
  let scan := scanBest (fun item => fuzzRatio query (tvCandidate item)) false item_list
  match scan.final_list.getLast? with
  | none => .error .indexError
  | some item =>
    if scan.initial < 77 then
      .error (.episodeNotFound (episodeNotFoundMsg query item.name))
    else .ok item

/-! ### Characterization of the resolvers on a decomposed catalog -/

/-- If `b` is the first visible item attaining the maximal ratio, and no
visible item before `b` can fire the `> 98` break, `Movie.from_query`
resolves to `b` (or fails with the `MovieNotFound` message naming `b`
when the ratio is below 59), and the number of scanned items records
whether the break fired at `b`. -/
theorem movie_scan_firstMax (catalog : List MovieRow) (q : String)
    (pre post : List MovieRow) (b : MovieRow)
    (hsplit : catalog.filter (fun item => item.hidden == false) = pre ++ b :: post)
    (hpre : ∀ x ∈ pre,
      fuzzRatio (pyStrip (pyLower q)) (movieCandidate x) < fuzzRatio (pyStrip (pyLower q)) (movieCandidate b))
    (hbrk : ∀ x ∈ pre, fuzzRatio (pyStrip (pyLower q)) (movieCandidate x) ≤ 98)
    (hpost : ¬ 98 < fuzzRatio (pyStrip (pyLower q)) (movieCandidate b) → ∀ x ∈ post,
      fuzzRatio (pyStrip (pyLower q)) (movieCandidate x) ≤ fuzzRatio (pyStrip (pyLower q)) (movieCandidate b))
    (hpos : 0 < fuzzRatio (pyStrip (pyLower q)) (movieCandidate b)) :
    Movie.from_query catalog q =
      (if fuzzRatio (pyStrip (pyLower q)) (movieCandidate b) < 59 then
        .error (.movieNotFound (movieNotFoundMsg (pyStrip (pyLower q)) b.title))
      else .ok b) ∧
    (scanBest (fun item => fuzzRatio (pyStrip (pyLower q)) (movieCandidate item)) true
        (catalog.filter (fun item => item.hidden == false))).examined =
      (if 98 < fuzzRatio (pyStrip (pyLower q)) (movieCandidate b) then pre.length + 1
       else pre.length + 1 + post.length) := by
  obtain ⟨h1, h2, h3⟩ := scanAux_firstMax
    (fun item => fuzzRatio (pyStrip (pyLower q)) (movieCandidate item)) true b pre post 0 []
    hpos hpre (fun _ => hbrk)
    (fun hn => hpost (fun hgt => hn ⟨rfl, hgt⟩))
  constructor
  · simp only [Movie.from_query, scanBest]
    rw [hsplit, h2]
    simp [h1]
  · simp only [scanBest]
    rw [hsplit, h3]
    by_cases h98 : 98 < fuzzRatio (pyStrip (pyLower q)) (movieCandidate b)
    · simp [h98]
    · simp [h98]

/-- Counterpart of `movie_scan_firstMax` for `Song.from_query`
(no hidden filter, no break). -/
theorem song_scan_firstMax (catalog : List SongRow) (q : String)
    (pre post : List SongRow) (b : SongRow)
    (hsplit : catalog = pre ++ b :: post)
    (hpre : ∀ x ∈ pre,
      fuzzRatio (pyStrip (pyLower q)) (songCandidate x) < fuzzRatio (pyStrip (pyLower q)) (songCandidate b))
    (hpost : ∀ x ∈ post,
      fuzzRatio (pyStrip (pyLower q)) (songCandidate x) ≤ fuzzRatio (pyStrip (pyLower q)) (songCandidate b))
    (hpos : 0 < fuzzRatio (pyStrip (pyLower q)) (songCandidate b)) :
    Song.from_query catalog q =
      (if fuzzRatio (pyStrip (pyLower q)) (songCandidate b) < 59 then
        .error (.nothingFound (songNotFoundMsg (pyStrip (pyLower q)) b.title))
      else .ok b) := by
  obtain ⟨h1, h2, _⟩ := scanAux_firstMax
    (fun item => fuzzRatio (pyStrip (pyLower q)) (songCandidate item)) false b pre post 0 []
    hpos hpre (fun h => absurd h (by simp)) (fun _ => hpost)
  simp only [Song.from_query, scanBest]
  rw [hsplit, h2]
  simp [h1]

/-- Counterpart of `movie_scan_firstMax` for `TVShow.from_query`
(no hidden filter, no break, threshold 77). -/
theorem tv_scan_firstMax (catalog : List TVShowRow) (q : String)
    (pre post : List TVShowRow) (b : TVShowRow)
    (hsplit : catalog = pre ++ b :: post)
    (hpre : ∀ x ∈ pre,
      fuzzRatio (pyStrip (pyLower q)) (tvCandidate x) < fuzzRatio (pyStrip (pyLower q)) (tvCandidate b))
    (hpost : ∀ x ∈ post,
      fuzzRatio (pyStrip (pyLower q)) (tvCandidate x) ≤ fuzzRatio (pyStrip (pyLower q)) (tvCandidate b))
    (hpos : 0 < fuzzRatio (pyStrip (pyLower q)) (tvCandidate b)) :
    TVShow.from_query catalog q =
      (if fuzzRatio (pyStrip (pyLower q)) (tvCandidate b) < 77 then
        .error (.episodeNotFound (episodeNotFoundMsg (pyStrip (pyLower q)) b.name))
      else .ok b) := by
  obtain ⟨h1, h2, _⟩ := scanAux_firstMax
    (fun item => fuzzRatio (pyStrip (pyLower q)) (tvCandidate item)) false b pre post 0 []
    hpos hpre (fun h => absurd h (by simp)) (fun _ => hpost)
  simp only [TVShow.from_query, scanBest]
  rw [hsplit, h2]
  simp [h1]

/-! ## Claim C3 — hidden items and the resolvers -/

/-- A hidden row of the `songs` table. -/
def c3HiddenSong : SongRow := ⟨1, "a", "b", true⟩

/-- Claim C3 counterexample: `Song.from_query` scans `select * from
songs` with no `hidden` filter, so a hidden song whose comparison string
matches the query exactly is returned with its hidden flag set. -/
theorem C3_counterexample :
    Song.from_query [c3HiddenSong] "a - b" = .ok c3HiddenSong ∧
    c3HiddenSong.hidden = true :=
  ⟨by rfl, rfl⟩

/-- Claim C3 (amended): only `Movie.from_query` filters on the hidden
flag (`select * from movies where hidden=0`); every item it returns has
`hidden = false`.  (`Song.from_query` and `Episode.from_query` perform
no such filtering.) -/
theorem C3_theorem (catalog : List MovieRow) (q : String) (m : MovieRow)
    (h : Movie.from_query catalog q = .ok m) : m.hidden = false := by
  simp only [Movie.from_query, scanBest] at h
  split at h
  · exact absurd h (by simp)
  · next item heq =>
      split at h
      · exact absurd h (by simp)
      · have hm : item = m := by
          injection h
        subst hm
        have hmem := List.mem_of_getLast?_eq_some heq
        rcases scanAux_mem_final_list _ _ _ _ _ _ hmem with hc | hc
        · simp at hc
        · have := List.mem_filter.mp hc
          simpa using this.2

/-- A visible row of the `movies` table. -/
def c3VisibleMovie : MovieRow := ⟨1, "t", "1999", false⟩

/-- Witness for the C3 theorem at a concrete catalog. -/
theorem C3_witness :
    Movie.from_query [c3VisibleMovie] "t 1999" = .ok c3VisibleMovie ∧
    c3VisibleMovie.hidden = false :=
  ⟨by rfl, C3_theorem [c3VisibleMovie] "t 1999" c3VisibleMovie (by rfl)⟩

/-! ## Claim C10 — empty best-so-far list raises IndexError -/

/-- Claim C10: when the candidate list is empty, or no candidate attains
a fuzzy ratio strictly greater than 0, all three resolvers reach
`final_list[-1]` with an empty list and raise an uncaught `IndexError`
instead of the documented not-found error. -/
theorem C10_theorem
    (mcat : List MovieRow) (scat : List SongRow) (tcat : List TVShowRow) (q : String)
    (hm : ∀ x ∈ mcat.filter (fun item => item.hidden == false),
      fuzzRatio (pyStrip (pyLower q)) (movieCandidate x) = 0)
    (hs : ∀ x ∈ scat, fuzzRatio (pyStrip (pyLower q)) (songCandidate x) = 0)
    (ht : ∀ x ∈ tcat, fuzzRatio (pyStrip (pyLower q)) (tvCandidate x) = 0) :
    Movie.from_query mcat q = .error .indexError ∧
    Song.from_query scat q = .error .indexError ∧
    TVShow.from_query tcat q = .error .indexError := by
  refine ⟨?_, ?_, ?_⟩
  · have hsc := scanAux_saturated (fun item => fuzzRatio (pyStrip (pyLower q)) (movieCandidate item))
      true (mcat.filter (fun item => item.hidden == false)) 0 []
      (fun x hx => Nat.le_of_eq (hm x hx))
    simp only [Movie.from_query, scanBest, hsc, List.getLast?_nil]
  · have hsc := scanAux_saturated (fun item => fuzzRatio (pyStrip (pyLower q)) (songCandidate item))
      false scat 0 [] (fun x hx => Nat.le_of_eq (hs x hx))
    simp [Song.from_query, scanBest, hsc]
  · have hsc := scanAux_saturated (fun item => fuzzRatio (pyStrip (pyLower q)) (tvCandidate item))
      false tcat 0 [] (fun x hx => Nat.le_of_eq (ht x hx))
    simp [TVShow.from_query, scanBest, hsc]

/-- Witness for the C10 theorem: a movie catalog sharing no character
with the query, and empty song/TV catalogs. -/
theorem C10_witness :
    Movie.from_query [⟨1, "qqqq", "1999", false⟩] "zb" = .error .indexError ∧
    Song.from_query ([] : List SongRow) "zb" = .error .indexError ∧
    TVShow.from_query ([] : List TVShowRow) "zb" = .error .indexError :=
  C10_theorem [⟨1, "qqqq", "1999", false⟩] [] [] "zb"
    (by decide) (by simp) (by simp)

/-! ## Claim C4 — below-threshold failure and the "did you mean" name -/

/-- Claim C4 counterexample: a query whose best ratio against every
catalog entry is 0 (still below the threshold) does not fail with the
kind's not-found error: it raises `IndexError`. -/
theorem C4_counterexample :
    Movie.from_query [⟨1, "qqqq", "1999", false⟩] "zb" = .error .indexError ∧
    Err.isNotFound .indexError = false :=
  ⟨rfl, rfl⟩

/-- Claim C4 (amended): for every query whose best ratio against every
catalog entry is below the kind's minimum threshold (59 for movies and
songs, 77 for TV shows) — and at least one entry attains a ratio
strictly greater than 0 — resolution fails with the kind's not-found
error whose message names the best candidate seen. -/
theorem C4_theorem :
    (∀ (catalog : List MovieRow) (q : String) (pre post : List MovieRow) (b : MovieRow),
      catalog.filter (fun item => item.hidden == false) = pre ++ b :: post →
      (∀ x ∈ pre, fuzzRatio (pyStrip (pyLower q)) (movieCandidate x)
        < fuzzRatio (pyStrip (pyLower q)) (movieCandidate b)) →
      (∀ x ∈ post, fuzzRatio (pyStrip (pyLower q)) (movieCandidate x)
        ≤ fuzzRatio (pyStrip (pyLower q)) (movieCandidate b)) →
      0 < fuzzRatio (pyStrip (pyLower q)) (movieCandidate b) →
      fuzzRatio (pyStrip (pyLower q)) (movieCandidate b) < 59 →
      Movie.from_query catalog q
        = .error (.movieNotFound (movieNotFoundMsg (pyStrip (pyLower q)) b.title))) ∧
    (∀ (catalog : List SongRow) (q : String) (pre post : List SongRow) (b : SongRow),
      catalog = pre ++ b :: post →
      (∀ x ∈ pre, fuzzRatio (pyStrip (pyLower q)) (songCandidate x)
        < fuzzRatio (pyStrip (pyLower q)) (songCandidate b)) →
      (∀ x ∈ post, fuzzRatio (pyStrip (pyLower q)) (songCandidate x)
        ≤ fuzzRatio (pyStrip (pyLower q)) (songCandidate b)) →
      0 < fuzzRatio (pyStrip (pyLower q)) (songCandidate b) →
      fuzzRatio (pyStrip (pyLower q)) (songCandidate b) < 59 →
      Song.from_query catalog q
        = .error (.nothingFound (songNotFoundMsg (pyStrip (pyLower q)) b.title))) ∧
    (∀ (catalog : List TVShowRow) (q : String) (pre post : List TVShowRow) (b : TVShowRow),
      catalog = pre ++ b :: post →
      (∀ x ∈ pre, fuzzRatio (pyStrip (pyLower q)) (tvCandidate x)
        < fuzzRatio (pyStrip (pyLower q)) (tvCandidate b)) →
      (∀ x ∈ post, fuzzRatio (pyStrip (pyLower q)) (tvCandidate x)
        ≤ fuzzRatio (pyStrip (pyLower q)) (tvCandidate b)) →
      0 < fuzzRatio (pyStrip (pyLower q)) (tvCandidate b) →
      fuzzRatio (pyStrip (pyLower q)) (tvCandidate b) < 77 →
      TVShow.from_query catalog q
        = .error (.episodeNotFound (episodeNotFoundMsg (pyStrip (pyLower q)) b.name))) := by
  refine ⟨?_, ?_, ?_⟩
  · intro catalog q pre post b hsplit hpre hpost hpos hlt
    have h := movie_scan_firstMax catalog q pre post b hsplit hpre
      (fun x hx => by have := hpre x hx; omega) (fun _ => hpost) hpos
    rw [h.1]
    exact if_pos hlt
  · intro catalog q pre post b hsplit hpre hpost hpos hlt
    have h := song_scan_firstMax catalog q pre post b hsplit hpre hpost hpos
    rw [h]
    exact if_pos hlt
  · intro catalog q pre post b hsplit hpre hpost hpos hlt
    have h := tv_scan_firstMax catalog q pre post b hsplit hpre hpost hpos
    rw [h]
    exact if_pos hlt

/-- Witness for the C4 theorem at concrete single-item catalogs with
ratios 20 (movie), 33 (song) and 40 (TV show). -/
theorem C4_witness :
    Movie.from_query [⟨1, "qqqq", "1999", false⟩] "q"
      = .error (.movieNotFound (movieNotFoundMsg "q" "qqqq")) ∧
    Song.from_query [⟨1, "a", "b", false⟩] "a"
      = .error (.nothingFound (songNotFoundMsg "a" "b")) ∧
    TVShow.from_query [⟨1, "qqqq"⟩] "q"
      = .error (.episodeNotFound (episodeNotFoundMsg "q" "qqqq")) :=
  ⟨C4_theorem.1 [⟨1, "qqqq", "1999", false⟩] "q" [] [] ⟨1, "qqqq", "1999", false⟩
      rfl (by simp) (by simp) (by decide) (by decide),
    C4_theorem.2.1 [⟨1, "a", "b", false⟩] "a" [] [] ⟨1, "a", "b", false⟩
      rfl (by simp) (by simp) (by decide) (by decide),
    C4_theorem.2.2 [⟨1, "qqqq"⟩] "q" [] [] ⟨1, "qqqq"⟩
      rfl (by simp) (by simp) (by decide) (by decide)⟩

/-! ## Claim C5 — tie-breaking in the catalog scan -/

/-- Movie whose comparison string is one character longer than the
query (ratio 99 against it). -/
def c5MovieA : MovieRow := ⟨1, "qqqqqqqqqqqqqqqqqqqqqqqqqqqqq", "1999", false⟩

/-- First movie whose comparison string equals the query (ratio 100). -/
def c5MovieB : MovieRow := ⟨2, "qqqqqqqqqqqqqqqqqqqqqqqqqqqq", "1999", false⟩

/-- Second movie whose comparison string equals the query (ratio 100). -/
def c5MovieC : MovieRow := ⟨3, "qqqqqqqqqqqqqqqqqqqqqqqqqqqq", "1999", false⟩

/-- Claim C5 counterexample: in the catalog `[A, B, C]` where `B` and
`C` both attain the maximal ratio 100 but `A`, scanned first, has ratio
99 (> 98), the `break` fires at `A` and the resolver returns `A`, not
the earlier-scanned of the two tied items. -/
theorem C5_counterexample :
    fuzzRatio "qqqqqqqqqqqqqqqqqqqqqqqqqqqq 1999" (movieCandidate c5MovieA) = 99 ∧
    fuzzRatio "qqqqqqqqqqqqqqqqqqqqqqqqqqqq 1999" (movieCandidate c5MovieB) = 100 ∧
    fuzzRatio "qqqqqqqqqqqqqqqqqqqqqqqqqqqq 1999" (movieCandidate c5MovieC) = 100 ∧
    Movie.from_query [c5MovieA, c5MovieB, c5MovieC]
      "qqqqqqqqqqqqqqqqqqqqqqqqqqqq 1999" = .ok c5MovieA ∧
    c5MovieA ≠ c5MovieB := by
  refine ⟨by decide, by decide, by decide, rfl, by decide⟩

/-- Claim C5 (amended): when two visible items attain the same maximal
ratio, the earlier-scanned one is returned — provided no item scanned
before the first of them has a ratio above 98 (in which case the `> 98`
break returns that earlier item instead) and the maximal ratio clears
the threshold.  The current best is replaced only on strict
improvement. -/
theorem C5_theorem (catalog : List MovieRow) (q : String)
    (pre mid post : List MovieRow) (b c : MovieRow)
    (hsplit : catalog.filter (fun item => item.hidden == false)
      = pre ++ b :: (mid ++ c :: post))
    (htie : fuzzRatio (pyStrip (pyLower q)) (movieCandidate c)
      = fuzzRatio (pyStrip (pyLower q)) (movieCandidate b))
    (hpre : ∀ x ∈ pre, fuzzRatio (pyStrip (pyLower q)) (movieCandidate x)
      < fuzzRatio (pyStrip (pyLower q)) (movieCandidate b))
    (hpre98 : ∀ x ∈ pre, fuzzRatio (pyStrip (pyLower q)) (movieCandidate x) ≤ 98)
    (hmax : ∀ x ∈ mid ++ c :: post, fuzzRatio (pyStrip (pyLower q)) (movieCandidate x)
      ≤ fuzzRatio (pyStrip (pyLower q)) (movieCandidate b))
    (hthr : 59 ≤ fuzzRatio (pyStrip (pyLower q)) (movieCandidate b)) :
    Movie.from_query catalog q = .ok b := by
  have h := movie_scan_firstMax catalog q pre (mid ++ c :: post) b hsplit
    hpre hpre98 (fun _ => hmax) (by omega)
  rw [h.1]
  exact if_neg (by omega)

/-- Witness for the C5 theorem: two visible movies with identical
comparison strings; the first is returned. -/
theorem C5_witness :
    Movie.from_query [⟨1, "aa", "1999", false⟩, ⟨2, "aa", "1999", false⟩] "aa 1999"
      = .ok ⟨1, "aa", "1999", false⟩ :=
  C5_theorem [⟨1, "aa", "1999", false⟩, ⟨2, "aa", "1999", false⟩] "aa 1999"
    [] [] [] ⟨1, "aa", "1999", false⟩ ⟨2, "aa", "1999", false⟩
    rfl (by decide) (by simp) (by simp) (by decide) (by decide)

/-! ## Claim C6 — the `> 98` short-circuit -/

/-- A song whose comparison string is `"a - b"`. -/
def c6Song1 : SongRow := ⟨1, "a", "b", false⟩

/-- A second song, dissimilar to the query. -/
def c6Song2 : SongRow := ⟨2, "c", "d", false⟩

/-- Claim C6 counterexample: the loop of `Song.from_query` has no
`> 98` break.  With the first catalog item an exact match (ratio 100),
the scan still examines both items instead of short-circuiting. -/
theorem C6_counterexample :
    fuzzRatio "a - b" (songCandidate c6Song1) = 100 ∧
    (scanBest (fun item => fuzzRatio (pyStrip (pyLower "a - b")) (songCandidate item)) false
      [c6Song1, c6Song2]).examined = 2 ∧
    Song.from_query [c6Song1, c6Song2] "a - b" = .ok c6Song1 :=
  ⟨by decide, by decide, by rfl⟩

/-- Claim C6 (amended): `Movie.from_query` short-circuits as soon as an
item's ratio exceeds 98 (examining only the items up to and including
it) and returns that item; `Song.from_query` has no short-circuit and
always examines the entire catalog; for both, a query exactly equal to
an item's canonical comparison string returns that item — the first
such item, provided no earlier item exceeds ratio 98. -/
theorem C6_theorem :
    (∀ (catalog : List MovieRow) (q : String) (pre post : List MovieRow) (b : MovieRow),
      catalog.filter (fun item => item.hidden == false) = pre ++ b :: post →
      (∀ x ∈ pre, fuzzRatio (pyStrip (pyLower q)) (movieCandidate x) ≤ 98) →
      98 < fuzzRatio (pyStrip (pyLower q)) (movieCandidate b) →
      (scanBest (fun item => fuzzRatio (pyStrip (pyLower q)) (movieCandidate item)) true
        (catalog.filter (fun item => item.hidden == false))).examined = pre.length + 1 ∧
      Movie.from_query catalog q = .ok b) ∧
    (∀ (catalog : List SongRow) (q : String),
      (scanBest (fun item => fuzzRatio (pyStrip (pyLower q)) (songCandidate item)) false
        catalog).examined = catalog.length) ∧
    (∀ (catalog : List MovieRow) (q : String) (pre post : List MovieRow) (b : MovieRow),
      catalog.filter (fun item => item.hidden == false) = pre ++ b :: post →
      pyStrip (pyLower q) = movieCandidate b →
      (∀ x ∈ pre, fuzzRatio (pyStrip (pyLower q)) (movieCandidate x) ≤ 98) →
      Movie.from_query catalog q = .ok b) ∧
    (∀ (catalog : List SongRow) (q : String) (pre post : List SongRow) (b : SongRow),
      catalog = pre ++ b :: post →
      pyStrip (pyLower q) = songCandidate b →
      (∀ x ∈ pre, fuzzRatio (pyStrip (pyLower q)) (songCandidate x) ≤ 98) →
      Song.from_query catalog q = .ok b) := by
  refine ⟨?_, ?_, ?_, ?_⟩
  · intro catalog q pre post b hsplit hpre98 h98
    have h := movie_scan_firstMax catalog q pre post b hsplit
      (fun x hx => lt_of_le_of_lt (hpre98 x hx) h98) hpre98
      (fun hn => absurd h98 hn) (by omega)
    exact ⟨by rw [h.2]; exact if_pos h98, by rw [h.1]; exact if_neg (by omega)⟩
  · intro catalog q
    simp only [scanBest]
    exact scanAux_noBreak_examined _ catalog 0 []
  · intro catalog q pre post b hsplit hq hpre98
    have h100 : fuzzRatio (pyStrip (pyLower q)) (movieCandidate b) = 100 := by
      rw [hq]; exact fuzzRatio_self _
    have h := movie_scan_firstMax catalog q pre post b hsplit
      (fun x hx => by have := hpre98 x hx; omega) hpre98
      (fun hn => absurd (by omega) hn) (by omega)
    rw [h.1]
    exact if_neg (by omega)
  · intro catalog q pre post b hsplit hq hpre98
    have h100 : fuzzRatio (pyStrip (pyLower q)) (songCandidate b) = 100 := by
      rw [hq]; exact fuzzRatio_self _
    have h := song_scan_firstMax catalog q pre post b hsplit
      (fun x hx => by have := hpre98 x hx; omega)
      (fun x _ => by rw [h100]; exact fuzzRatio_le_100 _ _) (by omega)
    rw [h]
    exact if_neg (by omega)

/-- Witness for the C6 theorem at concrete catalogs: the movie scan
breaks after one item, the song catalog is fully examined, exact-match
queries resolve for both kinds. -/
theorem C6_witness :
    (scanBest (fun item => fuzzRatio (pyStrip (pyLower "aa 1999")) (movieCandidate item)) true
      (([⟨1, "aa", "1999", false⟩] : List MovieRow).filter
        (fun item => item.hidden == false))).examined = 1 ∧
    Movie.from_query [⟨1, "aa", "1999", false⟩] "aa 1999" = .ok ⟨1, "aa", "1999", false⟩ ∧
    (scanBest (fun item => fuzzRatio (pyStrip (pyLower "zz")) (songCandidate item)) false
      ([⟨1, "a", "b", false⟩] : List SongRow)).examined = 1 ∧
    Movie.from_query [⟨7, "bb", "2000", false⟩] "bb 2000" = .ok ⟨7, "bb", "2000", false⟩ ∧
    Song.from_query [⟨1, "a", "b", false⟩] "a - b" = .ok ⟨1, "a", "b", false⟩ :=
  ⟨(C6_theorem.1 [⟨1, "aa", "1999", false⟩] "aa 1999" [] [] ⟨1, "aa", "1999", false⟩
      rfl (by simp) (by decide)).1,
   (C6_theorem.1 [⟨1, "aa", "1999", false⟩] "aa 1999" [] [] ⟨1, "aa", "1999", false⟩
      rfl (by simp) (by decide)).2,
   C6_theorem.2.1 [⟨1, "a", "b", false⟩] "zz",
   C6_theorem.2.2.1 [⟨7, "bb", "2000", false⟩] "bb 2000" [] [] ⟨7, "bb", "2000", false⟩
      rfl (by decide) (by simp),
   C6_theorem.2.2.2 [⟨1, "a", "b", false⟩] "a - b" [] [] ⟨1, "a", "b", false⟩
      rfl (by decide) (by simp)⟩

/-! ## The frame extractor -/

/-- Shape of a decoded cv2 image: `shape[0]` is the number of pixel
rows (the image height), `shape[1]` the number of pixel columns (the
image width). -/
structure FrameShape where
  rows : ℕ
  cols : ℕ
deriving DecidableEq, Repr

/-- `LocalMedia._fix_dar` (`src/kinobot/media.py`, lines 181–192):

```
width, height = cv2_image.shape[:2]
fixed_aspect = self._dar / (width / height)
width = int(width * fixed_aspect)
return cv2.resize(cv2_image, (width, height))
```

`shape[:2]` of a cv2 image is `(rows, cols)`, so the variable `width`
receives the pixel height and `height` the pixel width; the embedding
mirrors this unpacking as written.  `cv2.resize(img, (w, h))` returns an
image with `w` columns and `h` rows.  `int()` on the non-negative float
is `Int.floor`. -/
def fix_dar (dar : ℚ) (cv2_image : FrameShape) : FrameShape :=
  let width : ℚ := cv2_image.rows
  let height : ℚ := cv2_image.cols
  let fixed_aspect : ℚ := dar / (width / height)
  let width2 : ℤ := ⌊width * fixed_aspect⌋
  { rows := cv2_image.cols, cols := width2.toNat }

/-- The frame index computed by `LocalMedia.get_frame`
(`src/kinobot/media.py`, lines 158–161):

```
extra_frames = int(self.fps * (milliseconds * 0.001))
frame_start = int(self.fps * seconds) + extra_frames
```

`int()` on these non-negative floats is `Int.floor`. -/
def frame_start_index (fps : ℚ) (seconds milliseconds : ℕ) : ℤ :=
  let extra_frames : ℤ := ⌊fps * ((milliseconds : ℚ) * (1 / 1000))⌋
  ⌊fps * (seconds : ℚ)⌋ + extra_frames

/-- Modelled from the spec: the target frame index as claim C7 states
it, `round(fps * seconds) + round(fps * milliseconds / 1000)`.  Only
used for comparison with the code's `frame_start_index`. -/
def claimed_frame_index (fps : ℚ) (seconds milliseconds : ℕ) : ℤ :=
  round (fps * (seconds : ℚ)) + round (fps * (milliseconds : ℚ) / 1000)

/-- `LocalMedia.get_frame` (`src/kinobot/media.py`, lines 151–174):
seek the capture to `frame_start` (`capture.set(1, frame_start)`),
decode exactly one frame (`capture.read()[1]`); if a frame came back,
apply `_fix_dar` with the stored DAR, otherwise raise
`InexistentTimestamp`.  The capture is modelled by `read`, mapping a
frame index to the optionally decoded frame at that position. -/
def get_frame (fps : ℚ) (read : ℤ → Option FrameShape) (dar : ℚ)
    (timestamps : ℕ × ℕ) : Except Err FrameShape :=
  let seconds := timestamps.1
  let milliseconds := timestamps.2
  match read (frame_start_index fps seconds milliseconds) with
  | some frame => .ok (fix_dar dar frame)
  | none => .error (.inexistentTimestamp ("`" ++ toString seconds ++ "` not found in video"))

/-! ## Claim C1 — aspect-ratio correction -/

/-- Claim C1: `_fix_dar` is claimed to hold the height constant and to
be the identity when the stored DAR equals the decoded frame's pixel
aspect ratio `width/height`.  The code unpacks `shape[:2]` (which is
`(rows, cols)`) as `(width, height)`, so on a 512-row × 1024-column
frame with DAR `2 = 1024/512` it returns a 1024-row × 2048-column
frame: the height changes and the dimensions are not preserved. -/
theorem C1_theorem :
    fix_dar 2 ⟨512, 1024⟩ = ⟨1024, 2048⟩ ∧
    (2 : ℚ) = 1024 / 512 ∧
    (fix_dar 2 ⟨512, 1024⟩).rows ≠ (⟨512, 1024⟩ : FrameShape).rows ∧
    fix_dar 2 ⟨512, 1024⟩ ≠ ⟨512, 1024⟩ := by
  have h : fix_dar 2 ⟨512, 1024⟩ = ⟨1024, 2048⟩ := by
    simp only [fix_dar]
    norm_num
    rfl
  exact ⟨h, by norm_num, by rw [h]; decide, by rw [h]; decide⟩

/-! ## Claim C7 — the target frame index -/

/-- Claim C7 counterexample: at `fps = 23.976` (a common NTSC rate) and
offset (1 s, 0 ms) the code's truncating index is 23 while the claimed
`round`-based index is 24. -/
theorem C7_counterexample :
    frame_start_index (2997 / 125) 1 0 = 23 ∧
    claimed_frame_index (2997 / 125) 1 0 = 24 ∧
    frame_start_index (2997 / 125) 1 0 ≠ claimed_frame_index (2997 / 125) 1 0 := by
  have h1 : frame_start_index (2997 / 125) 1 0 = 23 := by
    simp only [frame_start_index]
    norm_num
  have h2 : claimed_frame_index (2997 / 125) 1 0 = 24 := by
    simp only [claimed_frame_index]
    norm_num [round_eq]
  exact ⟨h1, h2, by rw [h1, h2]; decide⟩

/-- Claim C7 (amended): for every time offset the extractor computes the
target index as `⌊fps·seconds⌋ + ⌊fps·milliseconds/1000⌋` — Python
`int()` truncation, not `round` — then seeks to that index and decodes
exactly one frame: the result is `_fix_dar` of the single frame read at
that index, or `InexistentTimestamp` if the read yields nothing. -/
theorem C7_theorem (fps : ℚ) (read : ℤ → Option FrameShape) (dar : ℚ) (s ms : ℕ) :
    get_frame fps read dar (s, ms) =
      match read (⌊fps * (s : ℚ)⌋ + ⌊fps * (ms : ℚ) / 1000⌋) with
      | some frame => .ok (fix_dar dar frame)
      | none => .error (.inexistentTimestamp ("`" ++ toString s ++ "` not found in video")) := by
  have h : fps * ((ms : ℚ) * (1 / 1000)) = fps * (ms : ℚ) / 1000 := by ring
  simp only [get_frame, frame_start_index, h]

/-! ## The subtitle loader -/

/-- One parsed subtitle cue (an entry of the `srt` library's parse
result): index, start and end offsets (in milliseconds), text. -/
structure SubCue where
  index : ℕ
  start : ℕ
  stop : ℕ
  content : String
deriving DecidableEq, Repr

/-- What reading a subtitle file yields: either the cue list that
`srt.parse` returns, or a parse failure (`srt.TimestampParseError` /
`srt.SRTParseError`).  The `srt` parser is an external library, so its
outcome is abstracted to these two cases. -/
inductive SrtFile where
  | parsed (cues : List SubCue)
  | malformed
deriving DecidableEq, Repr

/-- `os.path.splitext(p)[0]`: drop the extension that starts at the
last `.` of the final path component, unless every character of that
component before the last `.` is itself a `.` (so dotfiles like
`.bashrc` keep their name). -/
def splitext_root (p : String) : String :=
  let l := p.data
  let sepIndex : ℤ :=
    ((l.enum.filter (fun pr => pr.2 == '/')).map (fun pr => (pr.1 : ℤ))).getLastD (-1)
  let dotIndex : ℤ :=
    ((l.enum.filter (fun pr => pr.2 == '.')).map (fun pr => (pr.1 : ℤ))).getLastD (-1)
  if sepIndex < dotIndex then
    let filename := (l.drop (sepIndex + 1).toNat).take (dotIndex.toNat - (sepIndex + 1).toNat)
    if filename.any (fun c => c != '.') then ⟨l.take dotIndex.toNat⟩ else p
  else p

/-- `LocalMedia.subtitle` (`src/kinobot/media.py`, lines 75–87): raise
`FileNotFoundError` when the media path is unset or missing; derive the
sibling subtitle path `os.path.splitext(path)[0] + ".en.srt"`; raise
`SubtitlesNotFound` when no file exists there; otherwise return the
derived path.  The file system is modelled by the `isfile`
predicate. -/
def subtitle (isfile : String → Bool) (path : Option String) : Except Err String :=
  match path with
  | none => .error .fileNotFound
  | some p =>
    if isfile p = false then .error .fileNotFound
    else
      let sub_file := splitext_root p ++ ".en.srt"
      if isfile sub_file = false then
        .error (.subtitlesNotFound "Subtitles not found. Please report this to the admin.")
      else .ok (splitext_root p ++ ".en.srt")

/-- `LocalMedia.get_subtitles` (`src/kinobot/media.py`, lines 128–141):
parse the subtitle file at `path` with `srt.parse`; on
`srt.TimestampParseError` or `srt.SRTParseError` raise
`SubtitlesNotFound` with the "corrupted" message.  Reading the file is
modelled by `readFile`. -/
def get_subtitles (readFile : String → SrtFile) (path : String) : Except Err (List SubCue) :=
  match readFile path with
  | .parsed subs => .ok subs
  | .malformed =>
      .error (.subtitlesNotFound "The subtitles are corrupted. Please report this to the admin.")

/-! ## Claim C8 — subtitle failure kinds -/

/-- Claim C8 counterexample: the missing-file failure and the
unparseable-file failure are raised with the *same* exception kind
(`SubtitlesNotFound`), not a distinct `SubtitlesCorrupted` kind — they
differ only in the message text. -/
theorem C8_counterexample :
    subtitle (fun s => s == "/kino/movie.mkv") (some "/kino/movie.mkv")
      = .error (.subtitlesNotFound "Subtitles not found. Please report this to the admin.") ∧
    get_subtitles (fun _ => .malformed) "/kino/movie.en.srt"
      = .error (.subtitlesNotFound "The subtitles are corrupted. Please report this to the admin.") ∧
    Err.isSubtitlesNotFound
      (.subtitlesNotFound "Subtitles not found. Please report this to the admin.") = true ∧
    Err.isSubtitlesNotFound
      (.subtitlesNotFound "The subtitles are corrupted. Please report this to the admin.") = true ∧
    ("Subtitles not found. Please report this to the admin." : String)
      ≠ "The subtitles are corrupted. Please report this to the admin." :=
  ⟨by rfl, rfl, rfl, rfl, by decide⟩

/-- Claim C8 (amended): subtitle loading fails with `SubtitlesNotFound`
("Subtitles not found. …") when no subtitle file exists at the sibling
path derived from the media file's path, and with the *same*
`SubtitlesNotFound` kind but the "corrupted" message when the file
exists but cannot be parsed; no distinct `SubtitlesCorrupted` kind
exists. -/
theorem C8_theorem (isfile : String → Bool) (p : String)
    (readFile : String → SrtFile) (q : String)
    (hmedia : isfile p = true)
    (hmiss : isfile (splitext_root p ++ ".en.srt") = false)
    (hmal : readFile q = .malformed) :
    subtitle isfile (some p)
      = .error (.subtitlesNotFound "Subtitles not found. Please report this to the admin.") ∧
    get_subtitles readFile q
      = .error (.subtitlesNotFound "The subtitles are corrupted. Please report this to the admin.") := by
  constructor
  · simp [subtitle, hmedia, hmiss]
  · simp [get_subtitles, hmal]

/-- Witness for the C8 theorem on a one-file file system. -/
theorem C8_witness :
    subtitle (fun s => s == "/m/v.mkv") (some "/m/v.mkv")
      = .error (.subtitlesNotFound "Subtitles not found. Please report this to the admin.") ∧
    get_subtitles (fun _ => SrtFile.malformed) "/m/v.en.srt"
      = .error (.subtitlesNotFound "The subtitles are corrupted. Please report this to the admin.") :=
  C8_theorem (fun s => s == "/m/v.mkv") "/m/v.mkv" (fun _ => SrtFile.malformed) "/m/v.en.srt"
    (by decide) (by decide) rfl

/-! ## The per-request pipeline of `main.py` -/

/-- Observable outcome of handling one selected request in
`handle_requests`: which frame specs were handed to `subs.Subs` (in
order), what was posted (`none` when the handler caught an exception and
nothing was posted), and whether the generic failure notification
(`notify(..., fail=True)`) was sent. -/
structure RequestOutcome (σ φ : Type) where
  attempted : List σ
  posted : Option (List φ)
  failNotified : Bool
deriving DecidableEq, Repr

/-- The frame-construction loop of `handle_requests`
(`src/kinobot/main.py`, lines 153–164): build one frame per spec in
order; a seek/decode failure raises, so construction stops at the first
failing spec.  `extract` models `subs.Subs` (from `kinobot_utils.subs`,
which is not under `src/`; per the spec it raises one of the caught
exception types on a seek/decode failure, modelled as `none`).  Returns
the specs attempted and the frames, or `none` if a spec raised. -/
def build_frames (extract : σ → Option φ) : List σ → List σ × Option (List φ)
  | [] => ([], some [])
  | s :: rest =>
    match extract s with
    | none => ([s], none)
    | some f =>
      let r := build_frames extract rest
      (s :: r.1, r.2.map (fun fs => f :: fs))

/-- The body of `handle_requests` (`src/kinobot/main.py`, lines
148–204) for one selected request: `if len(m["content"]) > 6: raise
AttributeError` fires before the frame loop; any exception raised inside
the `try` block (including a failing `subs.Subs`) is caught by the
single generic handler, which sends the failure notification and posts
nothing; only when every spec succeeds are the frames posted. -/
def handle_requests_item (extract : σ → Option φ) (content : List σ) :
    RequestOutcome σ φ :=
  if content.length > 6 then ⟨[], none, true⟩
  else
    match build_frames extract content with
    | (att, none) => ⟨att, none, true⟩
    | (att, some frames) => ⟨att, some frames, false⟩

/-- A list containing a spec on which `extract` fails makes
`build_frames` fail as a whole. -/
theorem build_frames_none {σ φ : Type} (extract : σ → Option φ) :
    ∀ (content : List σ), (∃ s ∈ content, extract s = none) →
      (build_frames extract content).2 = none := by
  intro content
  induction content with
  | nil =>
      rintro ⟨s, hs, _⟩
      simp at hs
  | cons x rest ih =>
      rintro ⟨s, hs, hnone⟩
      rcases List.mem_cons.mp hs with rfl | hmem
      · simp [build_frames, hnone]
      · cases hx : extract x with
        | none => simp [build_frames, hx]
        | some f =>
            have hr := ih ⟨s, hmem, hnone⟩
            simp [build_frames, hx, hr]

/-! ## Claim C9 — the per-item frame-spec bound -/

/-- Claim C9: a request whose list of frame specs exceeds the upper
bound (6) is rejected up front — no spec is handed to extraction,
nothing is posted, the failure notification is sent. -/
theorem C9_theorem {σ φ : Type} (extract : σ → Option φ) (content : List σ)
    (h : content.length > 6) :
    handle_requests_item extract content
      = ⟨[], none, true⟩ := by
  simp [handle_requests_item, h]

/-- Witness for the C9 theorem: seven specs, all extractable, are still
rejected with nothing attempted. -/
theorem C9_witness :
    handle_requests_item (fun n => some n) [1, 2, 3, 4, 5, 6, 7]
      = ⟨[], none, true⟩ :=
  C9_theorem (fun n => some n) [1, 2, 3, 4, 5, 6, 7] (by decide)

/-! ## Claim C2 — batch behaviour on a per-spec failure -/

/-- Claim C2 counterexample: a batch of 3 specs where spec 2 is
unseekable.  The pipeline does not extract specs 1 and 3 and report the
failure of 2: it stops at spec 2 (spec 3 is never attempted), posts
nothing, and sends only the generic failure notification. -/
theorem C2_counterexample :
    handle_requests_item (fun n => if n == 2 then none else some n) [1, 2, 3]
      = ⟨[1, 2], none, true⟩ ∧
    (handle_requests_item (fun n => if n == 2 then none else some n) [1, 2, 3]).posted
      ≠ some [1, 3] ∧
    3 ∉ (handle_requests_item (fun n => if n == 2 then none else some n) [1, 2, 3]).attempted :=
  ⟨rfl, by decide, by decide⟩

/-- Claim C2 (amended): in a multi-frame request (within the spec-count
bound), a seek/decode failure on any frame spec aborts the whole batch:
nothing is posted and a single generic failure notification — not
naming the failed offset — is sent. -/
theorem C2_theorem {σ φ : Type} (extract : σ → Option φ) (content : List σ)
    (hlen : content.length ≤ 6) (hfail : ∃ s ∈ content, extract s = none) :
    (handle_requests_item extract content).posted = none ∧
    (handle_requests_item extract content).failNotified = true := by
  have hb := build_frames_none extract content hfail
  have hnot : ¬ content.length > 6 := by omega
  rcases hbf : build_frames extract content with ⟨att, r⟩
  rw [hbf] at hb
  simp only at hb
  subst hb
  simp [handle_requests_item, hnot, hbf]

/-- Witness for the C2 theorem: one unseekable spec. -/
theorem C2_witness :
    (handle_requests_item (fun n => if n == 1 then none else some n) [1]).posted = none ∧
    (handle_requests_item (fun n => if n == 1 then none else some n) [1]).failNotified = true :=
  C2_theorem (fun n => if n == 1 then none else some n) [1] (by decide)
    ⟨1, by decide, by decide⟩
